import Mathlib

/-!
Verification development for the backend's ImageKit asset-reconciliation
layer: the URL classifier `isImageKitUrl`, the identifier resolver
`getImageKitFileId`, the tolerant deleter `deleteImageFromImageKit`
(utils/imagekitUpload.js), the product-update reconciliation filter
(documented updateProduct snippet), and the in-memory logo controller
(controllers/logoController.js).

JavaScript strings are embedded as `List Char` so that every operation is
structurally recursive and kernel-evaluable.  An absent (undefined) string
field is embedded as the empty list, matching JS truthiness for the places
where the code tests `x || y` or `if (x)` on strings.
-/

namespace ImageKit

/-- JavaScript string, embedded as a list of characters. -/
abbrev JStr := List Char

/-- Coerce a Lean string literal into the embedding. -/
def jstr (s : String) : JStr := s.data

/-- JS `a || b` on strings: an empty (or absent) string is falsy. -/
def jsOr (a b : JStr) : JStr := if a.isEmpty then b else a

/-- JS truthiness of a string: nonempty. -/
def truthy (s : JStr) : Bool := !s.isEmpty

/-- Leading-run test: `leads p s` is true when `s` begins with `p`
(JS `s.startsWith(p)` reads `startsW s p = leads p s`). -/
def leads : JStr → JStr → Bool
  | [], _ => true
  | _ :: _, [] => false
  | a :: as, b :: bs => a == b && leads as bs

/-- JS `s.startsWith(p)`. -/
def startsW (s p : JStr) : Bool := leads p s

/-- JS `s.endsWith(p)`. -/
def endsW (s p : JStr) : Bool := leads p.reverse s.reverse

/-- JS `s.includes(sub)`: substring containment. -/
def containsS (s sub : JStr) : Bool :=
  match s with
  | [] => sub.isEmpty
  | c :: cs => leads sub (c :: cs) || containsS cs sub

/-- JS `s.split(sep)` for a single-character separator: splits into the
(possibly empty) chunks between occurrences of the separator. -/
def splitC (sep : Char) : JStr → List JStr
  | [] => [[]]
  | c :: cs =>
    if c == sep then [] :: splitC sep cs
    else
      match splitC sep cs with
      | [] => [[c]]
      | h :: t => (c :: h) :: t

/-- JS `s.split(sep).pop()`: the last chunk (the split list is never empty). -/
def lastSeg (s : JStr) : JStr := (splitC '/' s).getLastD []

/-- Embedding of `isImageKitUrl` (utils/imagekitUpload.js):
`if (!url || typeof url !== 'string') return false;`
`if (!imagekitEndpoint) return false;`
`return url.includes(imagekitEndpoint) || url.startsWith('https://ik.imagekit.io/');`
The configured endpoint `process.env.IMAGEKIT_URL_ENDPOINT` is passed
explicitly; `none` is an unset variable and `some []` an empty one, both
falsy in JS. -/
def isImageKitUrl (endpoint : Option JStr) (url : JStr) : Bool :=
  if url.isEmpty then false
  else
    match endpoint with
    | none => false
    | some e =>
      if e.isEmpty then false
      else containsS url e || startsW url (jstr "https://ik.imagekit.io/")

/-- Splits the input at the first occurrence of the separator `"://"`,
returning the text before it and the text after it.  The accumulator holds
the already-scanned text reversed. -/
def findSchemeSep (acc : JStr) : JStr → Option (JStr × JStr)
  | [] => none
  | c :: cs =>
    if leads (jstr "://") (c :: cs) then some (acc.reverse, cs.drop 2)
    else findSchemeSep (c :: acc) cs

/-- Modelled platform builtin: JS `new URL(s).pathname` for the
`scheme://host/path` URLs this repository handles.  Parsing succeeds when a
nonempty scheme is followed by `://` and a nonempty host; the pathname is
the part from the first `/` after the host, truncated before any query or
fragment, and `/` when the URL has no path.  Anything else throws in JS,
here `none`. -/
def urlPathname (s : JStr) : Option JStr :=
  match findSchemeSep [] s with
  | none => none
  | some (scheme, rest) =>
    if scheme.isEmpty then none
    else
      let host := rest.takeWhile (fun c => c ≠ '/')
      let path := rest.dropWhile (fun c => c ≠ '/')
      if host.isEmpty then none
      else
        let path := path.takeWhile (fun c => c ≠ '?' && c ≠ '#')
        some (if path.isEmpty then jstr "/" else path)

/-- JS `'/' + parts.join('/')`. -/
def joinSlash (ps : List JStr) : JStr :=
  ps.foldl (fun acc p => acc ++ '/' :: p) []

/-- Embedding of `extractImageKitFilePath` (utils/imagekitUpload.js): parse
the URL and return `'/' + pathname-parts.join('/')`; on a parse failure,
return the input itself when it already starts with `/`; otherwise null. -/
def extractImageKitFilePath (imageUrl : JStr) : Option JStr :=
  if imageUrl.isEmpty then none
  else
    match urlPathname imageUrl with
    | some pathname =>
      let parts := (splitC '/' pathname).filter (fun p => !p.isEmpty)
      if parts.length > 0 then some (joinSlash parts) else none
    | none =>
      if startsW imageUrl (jstr "/") then some imageUrl else none

/-- Asset record returned by the remote host's `listFiles`.  Exactly the
fields the resolver reads; an absent field is the empty list. -/
structure FileRecord where
  filePath : JStr
  path : JStr
  file : JStr
  url : JStr
  webkitRelativePath : JStr
  name : JStr
  fileName : JStr
  fileId : JStr
deriving DecidableEq, Repr

/-- Method 1, first probe: `(file.filePath || file.path || file.file) === filePath`. -/
def m1PathMatch (filePath : JStr) (f : FileRecord) : Bool :=
  jsOr f.filePath (jsOr f.path f.file) == filePath

/-- Method 1, second probe: `urlToCheck === imageUrl || (urlToCheck && imageUrl.includes(urlToCheck.split('/').pop()))`
with `urlToCheck = file.url || file.webkitRelativePath`. -/
def m1UrlMatch (imageUrl : JStr) (f : FileRecord) : Bool :=
  let u := jsOr f.url f.webkitRelativePath
  u == imageUrl || (truthy u && containsS imageUrl (lastSeg u))

/-- Method 1, third probe: `nameToCheck === fileName || (pathToCheck && pathToCheck.endsWith(fileName))`
with `nameToCheck = file.name || file.fileName` and `pathToCheck = file.filePath || file.path`. -/
def m1NameMatch (fileName : JStr) (f : FileRecord) : Bool :=
  let n := jsOr f.name f.fileName
  let p := jsOr f.filePath f.path
  n == fileName || (truthy p && endsW p fileName)

/-- One `files.find(...)` step followed by `if (match && match.fileId) return match.fileId;`:
yields the first record satisfying the probe when that record carries a
truthy `fileId`, and nothing otherwise (the code then falls through to the
next probe even when a match without `fileId` was found). -/
def tryFind (files : List FileRecord) (p : FileRecord → Bool) : Option JStr :=
  match files.find? p with
  | some m => if truthy m.fileId then some m.fileId else none
  | none => none

/-- Method 1 of `getImageKitFileId`: the three successive `find` probes over
the folder-scoped listing. -/
def method1Lookup (files : List FileRecord) (filePath fileName imageUrl : JStr) :
    Option JStr :=
  tryFind files (m1PathMatch filePath) <|>
  tryFind files (m1UrlMatch imageUrl) <|>
  tryFind files (m1NameMatch fileName)

/-- Method 2 filter predicate (global listing): one combined disjunction of
all five criteria, with `filePathToCheck = file.filePath || file.path || file.file || ''`,
`urlToCheck = file.url || ''`, `nameToCheck = file.name || file.fileName || ''`. -/
def m2Match (filePath fileName imageUrl : JStr) (f : FileRecord) : Bool :=
  let fpc := jsOr f.filePath (jsOr f.path f.file)
  let u := f.url
  let n := jsOr f.name f.fileName
  fpc == filePath || u == imageUrl || n == fileName ||
    (truthy fpc && endsW fpc fileName) ||
    (truthy u && containsS imageUrl (lastSeg u))

/-- Method 2 of `getImageKitFileId`: `allFiles.filter(...)`, then the first
matching record's `fileId` when truthy, else null (a second matching record
is never consulted). -/
def method2Lookup (files : List FileRecord) (filePath fileName imageUrl : JStr) :
    Option JStr :=
  match files.filter (m2Match filePath fileName imageUrl) with
  | [] => none
  | m :: _ => if truthy m.fileId then some m.fileId else none

/-- Outcomes of the two `imagekit.listFiles` calls the resolver makes: the
folder-scoped query (`{path: folderPath, limit: 1000}`) and the unscoped
global query (`{limit: 1000}`).  `Except.error` is a rejected promise; an
`Except.ok` carries the normalized array of records. -/
structure ListEnv where
  folderList : Except Unit (List FileRecord)
  globalList : Except Unit (List FileRecord)
deriving Repr

/-- Embedding of `getImageKitFileId` (utils/imagekitUpload.js): guard the
input, extract the file path, derive the leaf filename, run Method 1 on the
folder-scoped listing (a listing error is caught and treated as no match),
then Method 2 on the global listing, returning null when both fail.  Every
remote error is caught, so the function always returns an `Option` and
never propagates an exception. -/
def getImageKitFileId (imageUrl : JStr) (env : ListEnv) : Option JStr :=
  if imageUrl.isEmpty then none
  else
    match extractImageKitFilePath imageUrl with
    | none => none
    | some filePath =>
      let parts := (splitC '/' filePath).filter (fun p => !p.isEmpty)
      let fileName := parts.getLastD []
      let step1 : Option JStr :=
        match env.folderList with
        | Except.error _ => none
        | Except.ok files => method1Lookup files filePath fileName imageUrl
      match step1 with
      | some fid => some fid
      | none =>
        match env.globalList with
        | Except.error _ => none
        | Except.ok files => method2Lookup files filePath fileName imageUrl

/-- Effect environment for `deleteImageFromImageKit`: the configured
endpoint used by `isImageKitUrl`, the two listing outcomes the embedded
resolver would see, and the outcome of `imagekit.deleteFile(fileId)` for
each identifier. -/
structure DeleteEnv where
  endpoint : Option JStr
  listEnv : ListEnv
  deleteOutcome : JStr → Except Unit Unit

/-- Embedding of `deleteImageFromImageKit` (utils/imagekitUpload.js).  The
result pairs the returned boolean with the list of `imagekit.deleteFile`
invocations made (each entry the identifier passed).  The whole body sits
in a try/catch that returns `false`, so a rejected `deleteFile` yields
`(false, [fileId])` rather than an exception; when the input is an
ImageKit URL the resolver is consulted first and a failed resolution
returns `false` with no delete call; any other nonempty input is passed
verbatim to `deleteFile`. -/
def deleteImageFromImageKit (fileIdOrUrl : JStr) (env : DeleteEnv) :
    Bool × List JStr :=
  if fileIdOrUrl.isEmpty then (false, [])
  else if isImageKitUrl env.endpoint fileIdOrUrl then
    match getImageKitFileId fileIdOrUrl env.listEnv with
    | none => (false, [])
    | some fid =>
      if fid.isEmpty then (false, [])
      else
        match env.deleteOutcome fid with
        | Except.ok _ => (true, [fid])
        | Except.error _ => (false, [fid])
  else
    match env.deleteOutcome fileIdOrUrl with
    | Except.ok _ => (true, [fileIdOrUrl])
    | Except.error _ => (false, [fileIdOrUrl])

/-- Modelled from the spec: the sequential batch driver (`deleteImageFiles`
in the product controller) is not among the provided sources, only its call
site in the documentation; per the spec it deletes the removed images one
at a time, recording per-item success and never aborting early.  Each item
is attempted via `deleteImageFromImageKit` and paired with its boolean
outcome. -/
def deleteImageFiles (items : List JStr) (env : DeleteEnv) :
    List (JStr × Bool) :=
  items.map (fun it => (it, (deleteImageFromImageKit it env).1))

/-- Embedding of the `updateProduct` reconciliation filter (documented
snippet, backend/controllers/productController.js):
`existingPhotos.forEach(existing => { if (isImageKitUrl(existing) && !photosToKeep.has(existing)) imagesToDelete.push(existing); })`
where `photosToKeep = new Set(existingPhotosToKeep)`.  `existingPhotos` is
the current photo set and `existingPhotosToKeep` the desired one. -/
def computeImagesToDelete (existingPhotos existingPhotosToKeep : List JStr)
    (endpoint : Option JStr) : List JStr :=
  existingPhotos.filter
    (fun e => isImageKitUrl endpoint e && !(existingPhotosToKeep.contains e))

/-- Remote delete attempts made by a product update: the reconciliation
filter followed by the sequential batch driver. -/
def updateProductDeletes (current desired : List JStr) (env : DeleteEnv) :
    List (JStr × Bool) :=
  deleteImageFiles (computeImagesToDelete current desired env.endpoint) env

/-- Process-local logo state (controllers/logoController.js):
`let currentLogoUrl = null; let currentLogoFileId = null;`. -/
structure LogoState where
  currentLogoUrl : Option JStr
  currentLogoFileId : Option JStr
deriving DecidableEq, Repr

/-- Successful `uploadImageToImageKit` result as the logo controller uses
it: `result.url` and `result.fileId` (both strings on success). -/
structure UploadResult where
  url : JStr
  fileId : JStr
deriving DecidableEq, Repr

/-- Embedding of the post-upload tail of `uploadLogo` (the upload already
succeeded with `res`): `if (currentLogoFileId && currentLogoUrl)` delete
the old logo inside its own try/catch (failure ignored), then set both
state variables to the new asset unconditionally.  The second component
records each `deleteImageFromImageKit` attempt with its outcome. -/
def uploadLogoSuccess (st : LogoState) (res : UploadResult) (env : DeleteEnv) :
    LogoState × List (JStr × Bool) :=
  let attempts :=
    match st.currentLogoFileId, st.currentLogoUrl with
    | some fid, some u =>
      if truthy fid && truthy u then
        [(fid, (deleteImageFromImageKit fid env).1)]
      else []
    | _, _ => []
  ({ currentLogoUrl := some res.url, currentLogoFileId := some res.fileId },
    attempts)

/-- Embedding of the whole `uploadLogo` handler given the upload outcome:
on an upload error the handler answers 500 and leaves the state untouched;
on success it runs the post-upload tail. -/
def uploadLogoHandler (st : LogoState)
    (uploadOutcome : Except Unit UploadResult) (env : DeleteEnv) :
    LogoState × List (JStr × Bool) :=
  match uploadOutcome with
  | Except.error _ => (st, [])
  | Except.ok res => uploadLogoSuccess st res env

/-- HTTP-level outcome of the logo DELETE handler.  `serverError` is the
500 branch of the `catch (deleteError)` block. -/
inductive LogoDeleteResponse where
  | notFound
  | ok (deletedUrl : JStr)
  | serverError
deriving DecidableEq, Repr

/-- Embedding of `deleteLogo` (controllers/logoController.js): 404 when
`!currentLogoFileId || !currentLogoUrl`; otherwise call
`deleteImageFromImageKit(currentLogoFileId)` — whose boolean result is
discarded and which never throws — clear both state variables and answer
200 with the old URL.  The `serverError` branch would require the delete
call to throw. -/
def deleteLogo (st : LogoState) (env : DeleteEnv) :
    LogoDeleteResponse × LogoState :=
  match st.currentLogoFileId, st.currentLogoUrl with
  | some fid, some u =>
    if truthy fid && truthy u then
      let _ := deleteImageFromImageKit fid env
      (LogoDeleteResponse.ok u, ⟨none, none⟩)
    else (LogoDeleteResponse.notFound, st)
  | _, _ => (LogoDeleteResponse.notFound, st)

/-- Embedding of `getLogo`: a pure read, the state is never written. -/
def getLogo (st : LogoState) : Option (JStr × Option JStr) × LogoState :=
  match st.currentLogoUrl with
  | none => (none, st)
  | some u => (some (u, st.currentLogoFileId), st)

/-- Both logo state variables are null together or set together. -/
def logoStateConsistent (st : LogoState) : Prop :=
  (st.currentLogoUrl = none ∧ st.currentLogoFileId = none) ∨
    (∃ u f, st.currentLogoUrl = some u ∧ st.currentLogoFileId = some f)

/-! Concrete scenarios used by counterexamples and witnesses. -/

/-- Example query URL; its extracted path is `/acct/products/img.jpg`. -/
def exUrl : JStr := jstr "https://ik.imagekit.io/acct/products/img.jpg"

/-- Extracted path of `exUrl`. -/
def exPath : JStr := jstr "/acct/products/img.jpg"

/-- Leaf filename of `exUrl`. -/
def exName : JStr := jstr "img.jpg"

/-- Record matching `exUrl` only by exact filename (criterion c). -/
def recNameOnly : FileRecord :=
  ⟨jstr "/other/pic.png", [], [], [], [], jstr "img.jpg", [], jstr "fidA"⟩

/-- Record whose recorded path equals the extracted path of `exUrl`. -/
def recExactPath : FileRecord :=
  ⟨jstr "/acct/products/img.jpg", [], [], [], [], jstr "pic2.png", [], jstr "fidB"⟩

/-- Record matching `exUrl` only by path suffix (criterion d). -/
def recSuffixOnly : FileRecord :=
  ⟨jstr "/archive/products/img.jpg", [], [], [], [], jstr "x.png", [], jstr "fidD"⟩

/-- Record matching `exUrl` only by exact filename (criterion c). -/
def recFileNameOnly : FileRecord :=
  ⟨jstr "/elsewhere/stuff.png", [], [], [], [], jstr "img.jpg", [], jstr "fidC"⟩

/-- Folder-scoped listing fails; the global listing holds a filename-only
match before the exact-path record. -/
def envGlobalHasExact : ListEnv :=
  ⟨Except.error (), Except.ok [recNameOnly, recExactPath]⟩

/-- Folder-scoped listing holds a suffix-only match before an
exact-filename match; the global listing fails. -/
def envFolderSuffixFirst : ListEnv :=
  ⟨Except.ok [recSuffixOnly, recFileNameOnly], Except.error ()⟩

/-- Folder-scoped listing holds the exact-path record (after a
filename-only match); the global listing fails. -/
def envFolderExact : ListEnv :=
  ⟨Except.ok [recNameOnly, recExactPath], Except.error ()⟩

/-- Both listings fail. -/
def envListsFail : ListEnv := ⟨Except.error (), Except.error ()⟩

/-- Remote delete that always succeeds. -/
def okDelete : JStr → Except Unit Unit := fun _ => Except.ok ()

/-- Remote delete that always fails. -/
def failDelete : JStr → Except Unit Unit := fun _ => Except.error ()

/-- Delete environment with no configured endpoint and succeeding deletes. -/
def envNoEndpoint : DeleteEnv := ⟨none, envListsFail, okDelete⟩

/-- Delete environment with a configured endpoint, a folder listing that
resolves `exUrl`, and succeeding deletes. -/
def envHostedOk : DeleteEnv :=
  ⟨some (jstr "https://ik.imagekit.io/acct"), envFolderExact, okDelete⟩

/-- Delete environment with a configured endpoint and failing deletes. -/
def envHostedFail : DeleteEnv :=
  ⟨some (jstr "https://ik.imagekit.io/acct"), envFolderExact, failDelete⟩

/-- Example upload result for the logo controller. -/
def resNew : UploadResult := ⟨jstr "https://ik.imagekit.io/acct/app-assets/app-logo.png", jstr "fidNew"⟩

/-- Logo state with a tracked prior logo. -/
def stPrior : LogoState := ⟨some (jstr "https://ik.imagekit.io/acct/app-assets/old-logo.png"), some (jstr "fidOld")⟩

/-- Current photo set of the witness product: two hosted images. -/
def curW : List JStr :=
  [jstr "https://ik.imagekit.io/acct/products/p1.jpg",
   jstr "https://ik.imagekit.io/acct/products/p2.jpg"]

/-- Desired photo set of the witness product: the first image kept. -/
def desW : List JStr := [jstr "https://ik.imagekit.io/acct/products/p1.jpg"]

/-! Theorems. -/

/-- C7: `isImageKitUrl` classifies a URL as hosted exactly when the
configured endpoint is present (nonempty) and the URL contains the endpoint
as a case-sensitive substring or starts with the hardcoded provider domain;
with the endpoint unset or empty every URL, including one on the hardcoded
domain, is classified not-hosted. -/
theorem isImageKitUrl_iff (e url : JStr) (he : e.isEmpty = false) :
    isImageKitUrl (some e) url =
      (containsS url e || startsW url (jstr "https://ik.imagekit.io/")) ∧
    isImageKitUrl none url = false ∧
    isImageKitUrl (some []) url = false := by
  refine ⟨?_, ?_, ?_⟩
  · unfold isImageKitUrl
    cases url with
    | nil =>
      have h1 : containsS [] e = false := by simpa [containsS] using he
      have h2 : startsW [] (jstr "https://ik.imagekit.io/") = false := by decide
      simp [h1, h2]
    | cons c cs => simp [he]
  · unfold isImageKitUrl
    cases url <;> simp
  · unfold isImageKitUrl
    cases url <;> simp

/-- Witness for C7 at the spec's own scenario URL and endpoint. -/
theorem isImageKitUrl_iff_witness :
    (jstr "https://ik.example.io/acct").isEmpty = false ∧
    (isImageKitUrl (some (jstr "https://ik.example.io/acct"))
        (jstr "https://ik.example.io/acct/app-assets/app-logo.png") =
      (containsS (jstr "https://ik.example.io/acct/app-assets/app-logo.png")
          (jstr "https://ik.example.io/acct") ||
        startsW (jstr "https://ik.example.io/acct/app-assets/app-logo.png")
          (jstr "https://ik.imagekit.io/")) ∧
    isImageKitUrl none (jstr "https://ik.example.io/acct/app-assets/app-logo.png") = false ∧
    isImageKitUrl (some []) (jstr "https://ik.example.io/acct/app-assets/app-logo.png") = false) :=
  ⟨by decide, isImageKitUrl_iff _ _ (by decide)⟩

/-- C4: when the folder-scoped listing and the global listing both fail,
`getImageKitFileId` returns null and no exception escapes (the embedding is
a total function into `Option`; every remote error is consumed here). -/
theorem getImageKitFileId_lists_fail (url : JStr) (env : ListEnv)
    (h1 : env.folderList = Except.error ())
    (h2 : env.globalList = Except.error ()) :
    getImageKitFileId url env = none := by
  unfold getImageKitFileId
  rw [h1, h2]
  split
  · rfl
  · split <;> rfl

/-- Witness for C4 at a concrete URL with both listings failing. -/
theorem getImageKitFileId_lists_fail_witness :
    envListsFail.folderList = Except.error () ∧
    envListsFail.globalList = Except.error () ∧
    getImageKitFileId exUrl envListsFail = none :=
  ⟨rfl, rfl, getImageKitFileId_lists_fail exUrl envListsFail rfl rfl⟩

/-- C9: a nonempty input the classifier does not recognize as hosted is not
skipped by `deleteImageFromImageKit`: the string is passed verbatim as the
remote file identifier in exactly one `deleteFile` call. -/
theorem deleteImage_nonhosted_verbatim (s : JStr) (env : DeleteEnv)
    (h1 : s.isEmpty = false) (h2 : isImageKitUrl env.endpoint s = false) :
    (deleteImageFromImageKit s env).2 = [s] := by
  unfold deleteImageFromImageKit
  simp only [h1, h2, Bool.false_eq_true, if_false]
  cases h : env.deleteOutcome s <;> simp

/-- Witness for C9: a bare legacy identifier with no endpoint configured. -/
theorem deleteImage_nonhosted_verbatim_witness :
    (jstr "legacy-file-id").isEmpty = false ∧
    isImageKitUrl envNoEndpoint.endpoint (jstr "legacy-file-id") = false ∧
    (deleteImageFromImageKit (jstr "legacy-file-id") envNoEndpoint).2 =
      [jstr "legacy-file-id"] :=
  ⟨by decide, by decide,
    deleteImage_nonhosted_verbatim _ _ (by decide) (by decide)⟩

/-- C1: every delete attempt a product update issues targets an element of
the current photo set that is absent from the desired set and classified as
hosted; no kept URL and no not-hosted URL is ever deleted. -/
theorem updateProduct_deletes_only_removed_hosted (current desired : List JStr)
    (env : DeleteEnv) (u : JStr)
    (h : u ∈ (updateProductDeletes current desired env).map Prod.fst) :
    u ∈ current ∧ u ∉ desired ∧ isImageKitUrl env.endpoint u = true := by
  have hmap : (updateProductDeletes current desired env).map Prod.fst
      = computeImagesToDelete current desired env.endpoint := by
    simp only [updateProductDeletes, deleteImageFiles, List.map_map]
    exact List.map_id' _
  rw [hmap] at h
  unfold computeImagesToDelete at h
  rw [List.mem_filter] at h
  obtain ⟨h1, h2⟩ := h
  rw [Bool.and_eq_true] at h2
  obtain ⟨h3, h4⟩ := h2
  refine ⟨h1, ?_, h3⟩
  simpa using h4

/-- Witness for C1: the spec's two-photo scenario; the removed second photo
is the one delete attempt. -/
theorem updateProduct_deletes_only_removed_hosted_witness :
    jstr "https://ik.imagekit.io/acct/products/p2.jpg" ∈
      (updateProductDeletes curW desW envHostedOk).map Prod.fst ∧
    (jstr "https://ik.imagekit.io/acct/products/p2.jpg" ∈ curW ∧
      jstr "https://ik.imagekit.io/acct/products/p2.jpg" ∉ desW ∧
      isImageKitUrl envHostedOk.endpoint
        (jstr "https://ik.imagekit.io/acct/products/p2.jpg") = true) :=
  ⟨by decide,
    updateProduct_deletes_only_removed_hosted curW desW envHostedOk _ (by decide)⟩

/-- C2 counterexample: the folder-scoped listing fails and the global
listing (successfully returned) contains `recExactPath`, whose recorded
path equals the path extracted from `exUrl`; resolution nevertheless
returns `fidA`, the identifier of the earlier record `recNameOnly`, which
matches only by filename — not the exact-path record's `fidB`. -/
theorem getImageKitFileId_global_exact_path_cex :
    envGlobalHasExact.globalList = Except.ok [recNameOnly, recExactPath] ∧
    extractImageKitFilePath exUrl = some recExactPath.filePath ∧
    recNameOnly.filePath ≠ recExactPath.filePath ∧
    recExactPath.fileId = jstr "fidB" ∧
    getImageKitFileId exUrl envGlobalHasExact = some (jstr "fidA") ∧
    getImageKitFileId exUrl envGlobalHasExact ≠ some recExactPath.fileId :=
  ⟨rfl, by decide, by decide, by decide, by decide, by decide⟩

/-- C2 (amended): exact-path priority holds for the folder-scoped listing:
when it contains a record whose recorded path equals the extracted path and
that record carries an identifier, the first such record's identifier is
returned.  (In the global fallback all criteria are tested in a single
pass, so the exact-path record wins only if no earlier record matches any
criterion.) -/
theorem getImageKitFileId_folder_exact_path (url fp : JStr) (env : ListEnv)
    (files : List FileRecord) (m : FileRecord)
    (hu : url.isEmpty = false)
    (he : extractImageKitFilePath url = some fp)
    (hl : env.folderList = Except.ok files)
    (hf : files.find? (m1PathMatch fp) = some m)
    (hid : truthy m.fileId = true) :
    getImageKitFileId url env = some m.fileId := by
  unfold getImageKitFileId
  rw [hu, he, hl]
  simp only [Bool.false_eq_true, if_false, method1Lookup, tryFind, hf, hid, if_true,
    Option.some_orElse]

/-- Witness for the amended C2 at the concrete folder listing holding the
exact-path record. -/
theorem getImageKitFileId_folder_exact_path_witness :
    exUrl.isEmpty = false ∧
    extractImageKitFilePath exUrl = some exPath ∧
    envFolderExact.folderList = Except.ok [recNameOnly, recExactPath] ∧
    [recNameOnly, recExactPath].find? (m1PathMatch exPath) = some recExactPath ∧
    truthy recExactPath.fileId = true ∧
    getImageKitFileId exUrl envFolderExact = some recExactPath.fileId :=
  ⟨by decide, by decide, rfl, by decide, by decide,
    getImageKitFileId_folder_exact_path exUrl exPath envFolderExact
      [recNameOnly, recExactPath] recExactPath (by decide) (by decide) rfl
      (by decide) (by decide)⟩

/-- C3 counterexample: in the folder-scoped listing, `recSuffixOnly`
matches only by path suffix (criterion d) and `recFileNameOnly` matches by
exact filename (criterion c); neither matches by exact path or URL.  The
claimed priority (c before d) would pick `recFileNameOnly`, but the code
runs (c) and (d) as one combined probe and returns the earlier
`recSuffixOnly`'s identifier. -/
theorem getImageKitFileId_priority_cex :
    envFolderSuffixFirst.folderList = Except.ok [recSuffixOnly, recFileNameOnly] ∧
    extractImageKitFilePath exUrl = some exPath ∧
    recFileNameOnly.name = exName ∧
    recSuffixOnly.name ≠ exName ∧
    endsW recSuffixOnly.filePath exName = true ∧
    recSuffixOnly.filePath ≠ exPath ∧
    recFileNameOnly.filePath ≠ exPath ∧
    m1UrlMatch exUrl recSuffixOnly = false ∧
    m1UrlMatch exUrl recFileNameOnly = false ∧
    getImageKitFileId exUrl envFolderSuffixFirst = some recSuffixOnly.fileId ∧
    getImageKitFileId exUrl envFolderSuffixFirst ≠ some recFileNameOnly.fileId :=
  ⟨rfl, by decide, by decide, by decide, by decide, by decide, by decide,
    by decide, by decide, by decide, by decide⟩

/-- C3 (amended): in the folder-scoped listing the probes run in the order
(a) exact stored path, then (b) URL match, then one combined
filename-or-path-suffix probe whose ties are broken by list order alone;
in the global fallback all criteria form a single pass with the first
matching record in list order winning. -/
theorem method_match_priority :
    (∀ (files : List FileRecord) (fp fn url : JStr) (m : FileRecord),
      files.find? (m1PathMatch fp) = some m → truthy m.fileId = true →
      method1Lookup files fp fn url = some m.fileId) ∧
    (∀ (files : List FileRecord) (fp fn url : JStr) (m : FileRecord),
      (∀ f ∈ files, m1PathMatch fp f = false) →
      (∀ f ∈ files, m1UrlMatch url f = false) →
      files.find? (m1NameMatch fn) = some m → truthy m.fileId = true →
      method1Lookup files fp fn url = some m.fileId) ∧
    (∀ (files : List FileRecord) (fp fn url : JStr) (m : FileRecord)
      (rest : List FileRecord),
      files.filter (m2Match fp fn url) = m :: rest → truthy m.fileId = true →
      method2Lookup files fp fn url = some m.fileId) := by
  refine ⟨?_, ?_, ?_⟩
  · intro files fp fn url m hf hid
    simp only [method1Lookup, tryFind, hf, hid, if_true, Option.some_orElse]
  · intro files fp fn url m ha hb hf hid
    have ha' : files.find? (m1PathMatch fp) = none := List.find?_eq_none.mpr
      (fun f hm => by simp [ha f hm])
    have hb' : files.find? (m1UrlMatch url) = none := List.find?_eq_none.mpr
      (fun f hm => by simp [hb f hm])
    simp only [method1Lookup, tryFind, ha', hb', hf, hid, if_true,
      Option.none_orElse]
  · intro files fp fn url m rest hfil hid
    simp only [method2Lookup, hfil, hid, if_true]

/-- Witness for the amended C3: stage (a) wins on the concrete folder
listing, and the combined stage (c/d) fires when (a) and (b) find nothing. -/
theorem method_match_priority_witness :
    ([recNameOnly, recExactPath].find? (m1PathMatch exPath) = some recExactPath ∧
      truthy recExactPath.fileId = true ∧
      method1Lookup [recNameOnly, recExactPath] exPath exName exUrl =
        some recExactPath.fileId) ∧
    ((∀ f ∈ [recSuffixOnly, recFileNameOnly], m1PathMatch exPath f = false) ∧
      (∀ f ∈ [recSuffixOnly, recFileNameOnly], m1UrlMatch exUrl f = false) ∧
      [recSuffixOnly, recFileNameOnly].find? (m1NameMatch exName) =
        some recSuffixOnly ∧
      method1Lookup [recSuffixOnly, recFileNameOnly] exPath exName exUrl =
        some recSuffixOnly.fileId) :=
  ⟨⟨by decide, by decide,
      method_match_priority.1 [recNameOnly, recExactPath] exPath exName exUrl
        recExactPath (by decide) (by decide)⟩,
    ⟨by decide, by decide, by decide,
      method_match_priority.2.1 [recSuffixOnly, recFileNameOnly] exPath exName
        exUrl recSuffixOnly (by decide) (by decide) (by decide) (by decide)⟩⟩

/-- C5: `deleteImageFromImageKit` is a total boolean-valued function (its
try/catch converts every failure into `false`, so no exception escapes),
and the sequential batch therefore attempts every item: the report lists
exactly the input items in order, each paired with its own delete result,
independent of any earlier item's failure. -/
theorem deleteImageFiles_attempts_all (items : List JStr) (env : DeleteEnv) :
    (deleteImageFiles items env).map Prod.fst = items ∧
    ∀ it ∈ items,
      (it, (deleteImageFromImageKit it env).1) ∈ deleteImageFiles items env := by
  constructor
  · simp only [deleteImageFiles, List.map_map]
    exact List.map_id' _
  · intro it hit
    exact List.mem_map_of_mem _ hit

/-- Witness for C5: a two-item batch whose deletes all fail remotely still
attempts both items. -/
theorem deleteImageFiles_attempts_all_witness :
    (deleteImageFiles [jstr "item1", jstr "item2"] envHostedFail).map Prod.fst =
      [jstr "item1", jstr "item2"] ∧
    jstr "item1" ∈ [jstr "item1", jstr "item2"] ∧
    (jstr "item1", (deleteImageFromImageKit (jstr "item1") envHostedFail).1) ∈
      deleteImageFiles [jstr "item1", jstr "item2"] envHostedFail :=
  ⟨(deleteImageFiles_attempts_all [jstr "item1", jstr "item2"] envHostedFail).1,
    by decide,
    (deleteImageFiles_attempts_all [jstr "item1", jstr "item2"] envHostedFail).2
      _ (by decide)⟩

/-- C6: after a successful logo upload, a state without a tracked prior
logo issues no delete and tracks the new asset; a state with a tracked
prior logo (known identifier) issues exactly one delete attempt for the
prior identifier and tracks the new asset unconditionally — the resulting
state is the same for every delete environment, failing or not. -/
theorem uploadLogo_replaces_singleton (st : LogoState) (res : UploadResult)
    (env : DeleteEnv) :
    (st.currentLogoFileId = none →
      uploadLogoSuccess st res env =
        (⟨some res.url, some res.fileId⟩, [])) ∧
    (∀ fid u, st.currentLogoFileId = some fid → st.currentLogoUrl = some u →
      truthy fid = true → truthy u = true →
      (uploadLogoSuccess st res env).2.map Prod.fst = [fid] ∧
      (uploadLogoSuccess st res env).1 = ⟨some res.url, some res.fileId⟩) := by
  obtain ⟨cu, cf⟩ := st
  constructor
  · intro h
    cases cu <;> simp_all [uploadLogoSuccess]
  · intro fid u h1 h2 h3 h4
    simp only at h1 h2
    subst h1; subst h2
    simp [uploadLogoSuccess, h3, h4]

/-- Witness for C6: both scenarios at concrete states, against a failing
delete environment. -/
theorem uploadLogo_replaces_singleton_witness :
    ((⟨none, none⟩ : LogoState).currentLogoFileId = none ∧
      uploadLogoSuccess ⟨none, none⟩ resNew envHostedFail =
        (⟨some resNew.url, some resNew.fileId⟩, [])) ∧
    (stPrior.currentLogoFileId = some (jstr "fidOld") ∧
      stPrior.currentLogoUrl =
        some (jstr "https://ik.imagekit.io/acct/app-assets/old-logo.png") ∧
      (uploadLogoSuccess stPrior resNew envHostedFail).2.map Prod.fst =
        [jstr "fidOld"] ∧
      (uploadLogoSuccess stPrior resNew envHostedFail).1 =
        ⟨some resNew.url, some resNew.fileId⟩) :=
  ⟨⟨rfl, (uploadLogo_replaces_singleton ⟨none, none⟩ resNew envHostedFail).1 rfl⟩,
    ⟨rfl, rfl,
      ((uploadLogo_replaces_singleton stPrior resNew envHostedFail).2
        (jstr "fidOld") _ rfl rfl (by decide) (by decide)).1,
      ((uploadLogo_replaces_singleton stPrior resNew envHostedFail).2
        (jstr "fidOld") _ rfl rfl (by decide) (by decide)).2⟩⟩

/-- C8: the 500 branch of the logo DELETE handler is unreachable — the
embedded `deleteImageFromImageKit` is total, its boolean result is
discarded — so whenever a logo is tracked the handler answers 200 with the
old URL and clears both state variables, for every delete environment,
including one whose remote delete fails. -/
theorem deleteLogo_tracked_always_ok (st : LogoState) (env : DeleteEnv) :
    (deleteLogo st env).1 ≠ LogoDeleteResponse.serverError ∧
    (∀ fid u, st.currentLogoFileId = some fid → st.currentLogoUrl = some u →
      truthy fid = true → truthy u = true →
      deleteLogo st env = (LogoDeleteResponse.ok u, ⟨none, none⟩)) := by
  obtain ⟨cu, cf⟩ := st
  constructor
  · cases cu <;> cases cf <;> simp [deleteLogo]
    split <;> simp
  · intro fid u h1 h2 h3 h4
    simp only at h1 h2
    subst h1; subst h2
    simp [deleteLogo, h3, h4]

/-- Witness for C8 at the tracked prior-logo state with a failing remote
delete. -/
theorem deleteLogo_tracked_always_ok_witness :
    stPrior.currentLogoFileId = some (jstr "fidOld") ∧
    stPrior.currentLogoUrl =
      some (jstr "https://ik.imagekit.io/acct/app-assets/old-logo.png") ∧
    deleteLogo stPrior envHostedFail =
      (LogoDeleteResponse.ok
        (jstr "https://ik.imagekit.io/acct/app-assets/old-logo.png"),
        ⟨none, none⟩) :=
  ⟨rfl, rfl,
    (deleteLogo_tracked_always_ok stPrior envHostedFail).2 (jstr "fidOld") _
      rfl rfl (by decide) (by decide)⟩

/-- C10: every completed logo handler preserves the consistency of the two
state variables — null together or set together — given that a successful
upload result carries both a url and a fileId (the `UploadResult` fields). -/
theorem logoState_consistency (st : LogoState)
    (out : Except Unit UploadResult) (env : DeleteEnv)
    (h : logoStateConsistent st) :
    logoStateConsistent (uploadLogoHandler st out env).1 ∧
    logoStateConsistent (deleteLogo st env).2 ∧
    logoStateConsistent (getLogo st).2 := by
  obtain ⟨cu, cf⟩ := st
  refine ⟨?_, ?_, ?_⟩
  · cases out with
    | error e => simpa [uploadLogoHandler] using h
    | ok res => exact Or.inr ⟨res.url, res.fileId, rfl, rfl⟩
  · cases cu with
    | none => cases cf <;> simpa [deleteLogo] using h
    | some u =>
      cases cf with
      | none => simpa [deleteLogo] using h
      | some fid =>
        by_cases hc : (truthy fid && truthy u) = true
        · simp [deleteLogo, hc, logoStateConsistent]
        · simpa [deleteLogo, hc] using h
  · cases cu <;> simpa [getLogo] using h

/-- Witness for C10 at the empty initial state. -/
theorem logoState_consistency_witness :
    logoStateConsistent ⟨none, none⟩ ∧
    (logoStateConsistent
        (uploadLogoHandler ⟨none, none⟩ (Except.ok resNew) envHostedFail).1 ∧
      logoStateConsistent (deleteLogo ⟨none, none⟩ envHostedFail).2 ∧
      logoStateConsistent (getLogo ⟨none, none⟩).2) :=
  ⟨Or.inl ⟨rfl, rfl⟩,
    logoState_consistency ⟨none, none⟩ (Except.ok resNew) envHostedFail
      (Or.inl ⟨rfl, rfl⟩)⟩

end ImageKit
